import Mathlib

/-!
Shallow embedding of the forecast engine of `src/streamlit_app.py`
(Stylus Education interactive revenue forecast).

Modelling conventions:
* Python floats are modelled as exact rationals (`ℚ`); Python 3 `round`
  (round half to even) is modelled by `pyround`.
* A Python `dict` lookup that can raise `KeyError`, and `list.index`, which
  raises `ValueError` when the element is absent, are modelled as
  `Option`-valued functions (`none` = exception).
* `pd.DataFrame(dict, index)` raises `ValueError` when the column lists do
  not all have the length of the index; `forecast` returns `none` there.
* The sidebar widgets only clamp inputs; the engine reads the resulting
  values, collected here in the `Assumptions` record, with the widget
  ranges collected in `Valid`.
-/

namespace StylusForecast

/-- Python 3 `round` on an exact rational: round half to even. -/
def pyround (x : ℚ) : ℤ :=
  if x - ⌊x⌋ < 1/2 then ⌊x⌋
  else if (1 : ℚ)/2 < x - ⌊x⌋ then ⌊x⌋ + 1
  else if ⌊x⌋ % 2 = 0 then ⌊x⌋ else ⌊x⌋ + 1

/-- A calendar quarter, as in `pd.period_range(..., freq="Q")`. -/
structure Quarter where
  year : ℕ
  q : ℕ
deriving DecidableEq

/-- Successor quarter. -/
def Quarter.next (p : Quarter) : Quarter :=
  if p.q = 4 then ⟨p.year + 1, 1⟩ else ⟨p.year, p.q + 1⟩

/-- The anchor quarter 2025Q3 of `pd.period_range("2025Q3", periods=12)`. -/
def anchor : Quarter := ⟨2025, 3⟩

/-- Embeds `periods = pd.period_range("2025Q3", periods=12, freq="Q")`. -/
def periods : List Quarter := (List.range 12).map (fun i => Quarter.next^[i] anchor)

/-- Embeds `str(Period)` label, e.g. "2025Q3". -/
def Quarter.label (p : Quarter) : String := toString p.year ++ "Q" ++ toString p.q

/-- Embeds `labels = periods.astype(str)`. -/
def labels : List String := periods.map Quarter.label

/-- The sidebar assumption values read by the engine.  Prices are the
post-multiplication values (the UI multiplies the thousands inputs by 1000,
and `eal_start_learners` by 1,000,000). -/
structure Assumptions where
  start_uk : ℕ
  uk_growth_fast : ℚ
  uk_growth_taper : ℚ
  trials_q : ℕ
  conv_rate : ℚ
  mat_multiplier : ℕ
  dist_add_q : ℕ
  dist_start_q : String
  eal_start_q : String
  eal_start_learners : ℚ
  eal_quarterly_multiplier : ℚ
  school_price_y1 : ℚ
  school_price_y2 : ℚ
  school_price_y3 : ℚ
  dist_price_y1 : ℚ
  dist_price_y2 : ℚ

/-- The widget ranges of the sidebar (the validation boundary). -/
def Valid (a : Assumptions) : Prop :=
  10 ≤ a.start_uk ∧ a.start_uk ≤ 1000 ∧
  1 ≤ a.uk_growth_fast ∧ a.uk_growth_fast ≤ 10 ∧
  0 ≤ a.uk_growth_taper ∧ a.uk_growth_taper ≤ 1 ∧
  1 ≤ a.trials_q ∧ a.trials_q ≤ 100 ∧
  0 ≤ a.conv_rate ∧ a.conv_rate ≤ 1 ∧
  5 ≤ a.mat_multiplier ∧ a.mat_multiplier ≤ 25 ∧
  1 ≤ a.dist_add_q ∧ a.dist_add_q ≤ 50 ∧
  a.dist_start_q ∈ ["2027Q1", "2027Q2", "2027Q3"] ∧
  a.eal_start_q ∈ ["2028Q1", "2028Q2", "2028Q3"] ∧
  0 < a.eal_start_learners ∧
  1 ≤ a.eal_quarterly_multiplier ∧ a.eal_quarterly_multiplier ≤ 4 ∧
  0 < a.school_price_y1 ∧ 0 < a.school_price_y2 ∧ 0 < a.school_price_y3 ∧
  0 < a.dist_price_y1 ∧ 0 < a.dist_price_y2

/-- Embeds `eal_price_annual = 30  # fixed £/learner/year`. -/
def eal_price_annual : ℚ := 30

/-- Half-year targets of `build_uk_counts`, parameterised by the three
globals it reads.  The loop `for i in range(1, 6)` is unrolled: for
`i <= 4` the target is `round(start_uk * uk_growth_fast ** i)`, for
`i = 5` it is `round(half_targets[-1] * (1 + uk_growth_taper * 2))`. -/
def half_targets_core (s : ℕ) (f t : ℚ) : List ℤ :=
  let h0 : ℤ := s
  let h1 := pyround ((s : ℚ) * f ^ 1)
  let h2 := pyround ((s : ℚ) * f ^ 2)
  let h3 := pyround ((s : ℚ) * f ^ 3)
  let h4 := pyround ((s : ℚ) * f ^ 4)
  let h5 := pyround ((h4 : ℚ) * (1 + t * 2))
  [h0, h1, h2, h3, h4, h5]

/-- Embeds `half_targets` as computed inside `build_uk_counts`. -/
def half_targets (a : Assumptions) : List ℤ :=
  half_targets_core a.start_uk a.uk_growth_fast a.uk_growth_taper

/-- The interpolation loop `for h in range(len(half_targets)-1)`: each
consecutive pair (base, target) contributes
`base + round((target - base) * 0.4)` and `target`. -/
def interp2 : List ℤ → List ℤ
  | base :: target :: rest =>
      (base + pyround (((target : ℚ) - (base : ℚ)) * (4/10))) :: target ::
        interp2 (target :: rest)
  | _ => []

/-- Embeds `build_uk_counts()[:12]` (returns `counts[:12]`). -/
def build_uk_counts (a : Assumptions) : List ℤ :=
  (interp2 (half_targets a)).take 12

/-- Embeds `ann_price_map` dict; a missing year is a `KeyError` (`none`). -/
def ann_price_map (a : Assumptions) (y : ℕ) : Option ℚ :=
  if y = 2025 then some a.school_price_y1
  else if y = 2026 then some (a.school_price_y2 * (3/4) + a.school_price_y1 * (1/4))
  else if y = 2027 then some a.school_price_y2
  else if y = 2028 then some a.school_price_y3
  else none

/-- Embeds `school_price_q = [ann_price_map[p.year]/4 for p in periods]`. -/
def school_price_q (a : Assumptions) : Option (List ℚ) :=
  periods.mapM (fun p => (ann_price_map a p.year).map (· / 4))

/-- Embeds `uk_rev = [c*p for c,p in zip(uk_counts, school_price_q)]` (zip
truncates to the shorter list). -/
def uk_rev (a : Assumptions) : Option (List ℚ) :=
  (school_price_q a).map (fun sp =>
    List.zipWith (fun (c : ℤ) (p : ℚ) => (c : ℚ) * p) (build_uk_counts a) sp)

/-- Embeds `trial_schedule = [trials_q if idx>=1 else trials_q*(72/36) for idx in range(12)]`. -/
def trial_schedule (a : Assumptions) : List ℚ :=
  (List.range 12).map (fun idx =>
    if 1 ≤ idx then (a.trials_q : ℚ) else (a.trials_q : ℚ) * (72/36))

/-- Embeds `mat_conv = [0]*12` then `mat_conv[i] = int(round(trial_schedule[i-2]*conv_rate))`
for `i in range(2, 12)`. -/
def mat_conv (a : Assumptions) : List ℤ :=
  (List.range 12).map (fun i =>
    if 2 ≤ i then pyround ((trial_schedule a).getD (i - 2) 0 * a.conv_rate) else 0)

/-- Embeds `pd.Series.cumsum` with a running accumulator. -/
def cumsumAux (acc : ℤ) : List ℤ → List ℤ
  | [] => []
  | x :: xs => (acc + x) :: cumsumAux (acc + x) xs

/-- Embeds `pd.Series(l).cumsum()`. -/
def cumsum (l : List ℤ) : List ℤ := cumsumAux 0 l

/-- Embeds `mat_cum = pd.Series(mat_conv).cumsum()`. -/
def mat_cum (a : Assumptions) : List ℤ := cumsum (mat_conv a)

/-- Embeds `mat_price_q = [ann_price_map[p.year]*mat_multiplier/4 for p in periods]`. -/
def mat_price_q (a : Assumptions) : Option (List ℚ) :=
  periods.mapM (fun p => (ann_price_map a p.year).map (· * (a.mat_multiplier : ℚ) / 4))

/-- Embeds `mat_rev = [c*p for c,p in zip(mat_cum, mat_price_q)]`. -/
def mat_rev (a : Assumptions) : Option (List ℚ) :=
  (mat_price_q a).map (fun mp =>
    List.zipWith (fun (c : ℤ) (p : ℚ) => (c : ℚ) * p) (mat_cum a) mp)

/-- Embeds `first_dist_idx = labels.tolist().index(dist_start_q)`; `list.index`
raises `ValueError` (`none`) when the label is absent. -/
def first_dist_idx (a : Assumptions) : Option ℕ :=
  labels.findIdx? (fun s => s == a.dist_start_q)

/-- Embeds `base_adds = [0]*12` then for `i in range(first_dist_idx, 12)`:
`base_adds[i] = dist_add_q`, overridden to 1 at `i == first_dist_idx`. -/
def base_adds (a : Assumptions) (j : ℕ) : List ℤ :=
  (List.range 12).map (fun i =>
    if i = j then 1 else if j ≤ i then (a.dist_add_q : ℤ) else 0)

/-- Embeds `dist_cum = pd.Series(base_adds).cumsum()`. -/
def dist_cum (a : Assumptions) (j : ℕ) : List ℤ := cumsum (base_adds a j)

/-- Embeds `dist_price_q = [(dist_price_y1 if p.year==2027 else dist_price_y2)/4
if p.year>=2027 else 0 for p in periods]`. -/
def dist_price_q (a : Assumptions) : List ℚ :=
  periods.map (fun p =>
    if 2027 ≤ p.year then (if p.year = 2027 then a.dist_price_y1 else a.dist_price_y2) / 4
    else 0)

/-- Embeds `dist_rev = [c*p for c,p in zip(dist_cum, dist_price_q)]`, downstream of
the raising index lookup. -/
def dist_rev (a : Assumptions) : Option (List ℚ) :=
  (first_dist_idx a).map (fun j =>
    List.zipWith (fun (c : ℤ) (p : ℚ) => (c : ℚ) * p) (dist_cum a j) (dist_price_q a))

/-- Embeds `first_eal_idx = labels.tolist().index(eal_start_q)`. -/
def first_eal_idx (a : Assumptions) : Option ℕ :=
  labels.findIdx? (fun s => s == a.eal_start_q)

/-- The EAL fill loop `for i in range(first_eal_idx, 12)` with running
`learners *= eal_quarterly_multiplier`, in closed form: entry `i` holds
`eal_start_learners * multiplier^(i - j)` once `j ≤ i`, else 0 (which also
matches the `if first_eal_idx < 12` guard when `j ≥ 12`). -/
def eal_learners_from (a : Assumptions) (j : ℕ) : List ℚ :=
  (List.range 12).map (fun i =>
    if i < j then 0 else a.eal_start_learners * a.eal_quarterly_multiplier ^ (i - j))

/-- Embeds `eal_learners`, downstream of the raising index lookup. -/
def eal_learners (a : Assumptions) : Option (List ℚ) :=
  (first_eal_idx a).map (eal_learners_from a)

/-- Embeds `eal_rev = [n*(eal_price_annual/4) for n in eal_learners]`. -/
def eal_rev (a : Assumptions) : Option (List ℚ) :=
  (eal_learners a).map (List.map (fun n => n * (eal_price_annual / 4)))

/-- The tabular result: four segment revenue series plus the Total column. -/
structure ForecastResult where
  uk : List ℚ
  mats : List ℚ
  dists : List ℚ
  eal : List ℚ
  total : List ℚ

/-- Embeds `forecast = pd.DataFrame({...}, index=labels)` followed by
`forecast["Total"] = forecast.sum(axis=1)`.  `pd.DataFrame` raises
`ValueError` unless every column has the length of the index. -/
def forecast (a : Assumptions) : Option ForecastResult :=
  match uk_rev a, mat_rev a, dist_rev a, eal_rev a with
  | some uk, some mats, some dists, some eal =>
      if uk.length = labels.length ∧ mats.length = labels.length ∧
         dists.length = labels.length ∧ eal.length = labels.length then
        some ⟨uk, mats, dists, eal,
          List.zipWith (· + ·) uk
            (List.zipWith (· + ·) mats (List.zipWith (· + ·) dists eal))⟩
      else none
  | _, _, _, _ => none

/-- The sidebar default values (used as concrete sample inputs). -/
def defaultAssumptions : Assumptions where
  start_uk := 100
  uk_growth_fast := 5
  uk_growth_taper := 1/5
  trials_q := 25
  conv_rate := 7/10
  mat_multiplier := 10
  dist_add_q := 15
  dist_start_q := "2027Q1"
  eal_start_q := "2028Q1"
  eal_start_learners := 1000000
  eal_quarterly_multiplier := 2
  school_price_y1 := 5000
  school_price_y2 := 10000
  school_price_y3 := 15000
  dist_price_y1 := 100000
  dist_price_y2 := 150000

/-! ### Properties of `pyround` -/

theorem floor_le_pyround (x : ℚ) : ⌊x⌋ ≤ pyround x := by
  unfold pyround; split_ifs <;> omega

theorem pyround_le_floor_add_one (x : ℚ) : pyround x ≤ ⌊x⌋ + 1 := by
  unfold pyround; split_ifs <;> omega

theorem pyround_intCast (n : ℤ) : pyround (n : ℚ) = n := by
  unfold pyround
  rw [Int.floor_intCast]
  have h : (n : ℚ) - n = 0 := by ring
  rw [h]
  norm_num

theorem pyround_mono {x y : ℚ} (h : x ≤ y) : pyround x ≤ pyround y := by
  have hf : ⌊x⌋ ≤ ⌊y⌋ := Int.floor_le_floor h
  rcases lt_or_eq_of_le hf with hlt | heq
  · have h1 := pyround_le_floor_add_one x
    have h2 := floor_le_pyround y
    omega
  · unfold pyround
    rw [← heq]
    have hxy : x - ⌊x⌋ ≤ y - ⌊x⌋ := by linarith
    split_ifs <;> first | omega | linarith

theorem pyround_nonneg {x : ℚ} (h : 0 ≤ x) : 0 ≤ pyround x := by
  have h0 : pyround ((0 : ℤ) : ℚ) ≤ pyround x := pyround_mono (by exact_mod_cast h)
  rwa [pyround_intCast] at h0

/-! ### Properties of `findIdx?` and `cumsum` -/

theorem findIdx?_some_lt {α : Type} (p : α → Bool) :
    ∀ (l : List α) (i j : ℕ), List.findIdx? p l i = some j → j < i + l.length := by
  intro l
  induction l with
  | nil => intro i j h; simp [List.findIdx?] at h
  | cons x xs ih =>
      intro i j h
      rw [List.findIdx?_cons] at h
      by_cases hp : p x
      · simp [hp] at h
        simp
        omega
      · simp [hp] at h
        obtain ⟨m, hm, rfl⟩ := h
        have := ih 0 m (by simpa using hm)
        simp
        omega

theorem cumsumAux_length (acc : ℤ) (l : List ℤ) : (cumsumAux acc l).length = l.length := by
  induction l generalizing acc with
  | nil => rfl
  | cons x xs ih => simp [cumsumAux, ih]

theorem cumsum_length (l : List ℤ) : (cumsum l).length = l.length :=
  cumsumAux_length 0 l

theorem cumsumAux_getD (l : List ℤ) :
    ∀ (acc : ℤ) (i : ℕ), i < l.length →
      (cumsumAux acc l).getD i 0 = acc + (l.take (i + 1)).sum := by
  induction l with
  | nil => intro acc i h; simp at h
  | cons x xs ih =>
      intro acc i h
      cases i with
      | zero => simp [cumsumAux]
      | succ n =>
          have hn : n < xs.length := by simpa using h
          simp only [cumsumAux, List.getD_cons_succ, List.take_succ_cons, List.sum_cons]
          rw [ih (acc + x) n hn]
          ring

theorem cumsum_getD (l : List ℤ) (i : ℕ) (h : i < l.length) :
    (cumsum l).getD i 0 = (l.take (i + 1)).sum := by
  rw [cumsum, cumsumAux_getD l 0 i h, zero_add]

theorem cumsumAux_head_le (acc : ℤ) (l : List ℤ) (h : ∀ x ∈ l, 0 ≤ x) :
    ∀ y ∈ (cumsumAux acc l).head?, acc ≤ y := by
  cases l with
  | nil => simp [cumsumAux]
  | cons x xs =>
      simp only [cumsumAux, List.head?_cons, Option.mem_def, Option.some.injEq]
      intro y hy
      have hx : 0 ≤ x := h x (by simp)
      omega

theorem cumsumAux_chain' (l : List ℤ) (h : ∀ x ∈ l, 0 ≤ x) :
    ∀ acc : ℤ, List.Chain' (· ≤ ·) (cumsumAux acc l) := by
  induction l with
  | nil => intro acc; simp [cumsumAux]
  | cons x xs ih =>
      intro acc
      have hxs : ∀ y ∈ xs, 0 ≤ y := fun y hy => h y (by simp [hy])
      rw [cumsumAux, List.chain'_cons']
      exact ⟨cumsumAux_head_le (acc + x) xs hxs, ih hxs (acc + x)⟩

theorem cumsum_chain' (l : List ℤ) (h : ∀ x ∈ l, 0 ≤ x) :
    List.Chain' (· ≤ ·) (cumsum l) :=
  cumsumAux_chain' l h 0

/-! ### Evaluated forms of the fixed axis and price lists -/

theorem periods_eq : periods =
    [⟨2025, 3⟩, ⟨2025, 4⟩, ⟨2026, 1⟩, ⟨2026, 2⟩, ⟨2026, 3⟩, ⟨2026, 4⟩,
     ⟨2027, 1⟩, ⟨2027, 2⟩, ⟨2027, 3⟩, ⟨2027, 4⟩, ⟨2028, 1⟩, ⟨2028, 2⟩] := rfl

theorem labels_length : labels.length = 12 := rfl

theorem build_uk_counts_length (a : Assumptions) : (build_uk_counts a).length = 10 := rfl

theorem school_price_q_eq (a : Assumptions) : school_price_q a = some
    [a.school_price_y1 / 4, a.school_price_y1 / 4,
     (a.school_price_y2 * (3/4) + a.school_price_y1 * (1/4)) / 4,
     (a.school_price_y2 * (3/4) + a.school_price_y1 * (1/4)) / 4,
     (a.school_price_y2 * (3/4) + a.school_price_y1 * (1/4)) / 4,
     (a.school_price_y2 * (3/4) + a.school_price_y1 * (1/4)) / 4,
     a.school_price_y2 / 4, a.school_price_y2 / 4, a.school_price_y2 / 4,
     a.school_price_y2 / 4, a.school_price_y3 / 4, a.school_price_y3 / 4] := rfl

theorem mat_price_q_eq (a : Assumptions) : mat_price_q a = some
    [a.school_price_y1 * (a.mat_multiplier : ℚ) / 4,
     a.school_price_y1 * (a.mat_multiplier : ℚ) / 4,
     (a.school_price_y2 * (3/4) + a.school_price_y1 * (1/4)) * (a.mat_multiplier : ℚ) / 4,
     (a.school_price_y2 * (3/4) + a.school_price_y1 * (1/4)) * (a.mat_multiplier : ℚ) / 4,
     (a.school_price_y2 * (3/4) + a.school_price_y1 * (1/4)) * (a.mat_multiplier : ℚ) / 4,
     (a.school_price_y2 * (3/4) + a.school_price_y1 * (1/4)) * (a.mat_multiplier : ℚ) / 4,
     a.school_price_y2 * (a.mat_multiplier : ℚ) / 4,
     a.school_price_y2 * (a.mat_multiplier : ℚ) / 4,
     a.school_price_y2 * (a.mat_multiplier : ℚ) / 4,
     a.school_price_y2 * (a.mat_multiplier : ℚ) / 4,
     a.school_price_y3 * (a.mat_multiplier : ℚ) / 4,
     a.school_price_y3 * (a.mat_multiplier : ℚ) / 4] := rfl

theorem dist_price_q_eq (a : Assumptions) : dist_price_q a =
    [0, 0, 0, 0, 0, 0, a.dist_price_y1 / 4, a.dist_price_y1 / 4, a.dist_price_y1 / 4,
     a.dist_price_y1 / 4, a.dist_price_y2 / 4, a.dist_price_y2 / 4] := rfl

theorem uk_rev_length_eq (a : Assumptions) : (uk_rev a).map List.length = some 10 := rfl

theorem mat_conv_length (a : Assumptions) : (mat_conv a).length = 12 := rfl

theorem trial_schedule_getD_zero (a : Assumptions) :
    (trial_schedule a).getD 0 0 = (a.trials_q : ℚ) * 2 := by
  show (a.trials_q : ℚ) * (72/36) = (a.trials_q : ℚ) * 2
  norm_num

/-! ### Indexed access helpers -/

theorem getD_range_map {α : Type} (f : ℕ → α) (d : α) (n i : ℕ) (h : i < n) :
    ((List.range n).map f).getD i d = f i := by
  rw [List.getD_eq_getElem _ _ (by simpa using h), List.getElem_map, List.getElem_range]

theorem getD_zipWith_mul (l : List ℤ) (m : List ℚ) (i : ℕ)
    (h1 : i < l.length) (h2 : i < m.length) :
    (List.zipWith (fun (c : ℤ) (p : ℚ) => (c : ℚ) * p) l m).getD i 0 =
      (l.getD i 0 : ℚ) * m.getD i 0 := by
  have hlen : i < (List.zipWith (fun (c : ℤ) (p : ℚ) => (c : ℚ) * p) l m).length := by
    rw [List.length_zipWith]
    exact lt_min h1 h2
  rw [List.getD_eq_getElem _ _ hlen, List.getElem_zipWith,
      List.getD_eq_getElem _ _ h1, List.getD_eq_getElem _ _ h2]

theorem getD_map_eal_price (l : List ℚ) (i : ℕ) (h : i < l.length) :
    (l.map (fun n => n * (eal_price_annual / 4))).getD i 0 =
      l.getD i 0 * (eal_price_annual / 4) := by
  rw [List.getD_eq_getElem _ _ (by simpa using h), List.getElem_map,
      List.getD_eq_getElem _ _ h]

theorem trial_schedule_getD_nonneg (a : Assumptions) (k : ℕ) :
    0 ≤ (trial_schedule a).getD k 0 := by
  rcases lt_or_le k 12 with h | h
  · rw [trial_schedule, getD_range_map _ _ _ _ h]
    split_ifs <;> positivity
  · have hlen : (trial_schedule a).length ≤ k := by simpa [trial_schedule] using h
    rw [List.getD_eq_default _ _ hlen]

theorem mat_cum_length (a : Assumptions) : (mat_cum a).length = 12 := by
  rw [mat_cum, cumsum_length, mat_conv_length]

theorem base_adds_length (a : Assumptions) (j : ℕ) : (base_adds a j).length = 12 := by
  simp [base_adds]

theorem dist_cum_length (a : Assumptions) (j : ℕ) : (dist_cum a j).length = 12 := by
  rw [dist_cum, cumsum_length, base_adds_length]

theorem eal_learners_from_length (a : Assumptions) (j : ℕ) :
    (eal_learners_from a j).length = 12 := by
  simp [eal_learners_from]

theorem first_dist_idx_lt (a : Assumptions) (j : ℕ) (hj : first_dist_idx a = some j) :
    j < 12 := by
  have h := findIdx?_some_lt (fun s => s == a.dist_start_q) labels 0 j hj
  have h12 : labels.length = 12 := labels_length
  omega

theorem first_eal_idx_lt (a : Assumptions) (j : ℕ) (hj : first_eal_idx a = some j) :
    j < 12 := by
  have h := findIdx?_some_lt (fun s => s == a.eal_start_q) labels 0 j hj
  have h12 : labels.length = 12 := labels_length
  omega

theorem uk_rev_length (a : Assumptions) (l : List ℚ) (h : uk_rev a = some l) :
    l.length = 10 := by
  have h' := uk_rev_length_eq a
  rw [h] at h'
  simpa using h'

/-! ### Monotonicity machinery for the UK interpolation -/

theorem interp2_chain (l : List ℤ) :
    ∀ b : ℤ, List.Chain' (· ≤ ·) (b :: l) → List.Chain' (· ≤ ·) (b :: interp2 (b :: l)) := by
  induction l with
  | nil => intro b _; simp [interp2]
  | cons t rest ih =>
      intro b hbl
      rw [List.chain'_cons] at hbl
      obtain ⟨hbt, htl⟩ := hbl
      have hd : (0 : ℚ) ≤ (t : ℚ) - (b : ℚ) := by
        have : (b : ℚ) ≤ (t : ℚ) := by exact_mod_cast hbt
        linarith
      have h1 : 0 ≤ pyround (((t : ℚ) - (b : ℚ)) * (4/10)) := by
        apply pyround_nonneg
        nlinarith
      have h2 : pyround (((t : ℚ) - (b : ℚ)) * (4/10)) ≤ t - b := by
        have hle : ((t : ℚ) - (b : ℚ)) * (4/10) ≤ ((t - b : ℤ) : ℚ) := by
          push_cast
          linarith
        calc pyround (((t : ℚ) - (b : ℚ)) * (4/10)) ≤ pyround ((t - b : ℤ) : ℚ) :=
              pyround_mono hle
          _ = t - b := pyround_intCast _
      show List.Chain' (· ≤ ·)
        (b :: (b + pyround (((t : ℚ) - (b : ℚ)) * (4/10))) :: t :: interp2 (t :: rest))
      rw [List.chain'_cons, List.chain'_cons]
      exact ⟨by omega, by omega, ih t htl⟩

theorem interp2_chain_of_chain (l : List ℤ) (h : List.Chain' (· ≤ ·) l) :
    List.Chain' (· ≤ ·) (interp2 l) := by
  match l with
  | [] => simp [interp2]
  | b :: rest => exact (interp2_chain rest b h).tail

theorem half_targets_chain (a : Assumptions) (hf : 1 ≤ a.uk_growth_fast)
    (ht : 0 ≤ a.uk_growth_taper) : List.Chain' (· ≤ ·) (half_targets a) := by
  have hs : (0 : ℚ) ≤ (a.start_uk : ℚ) := by positivity
  have hf0 : (0 : ℚ) ≤ a.uk_growth_fast := le_trans zero_le_one hf
  have hpow : ∀ i : ℕ, (0 : ℚ) ≤ (a.start_uk : ℚ) * a.uk_growth_fast ^ i := by
    intro i; positivity
  have hmono : ∀ i : ℕ,
      (a.start_uk : ℚ) * a.uk_growth_fast ^ i ≤ (a.start_uk : ℚ) * a.uk_growth_fast ^ (i + 1) :=
    fun i => mul_le_mul_of_nonneg_left (pow_le_pow_right₀ hf (Nat.le_succ i)) hs
  have hstep : ∀ i : ℕ,
      pyround ((a.start_uk : ℚ) * a.uk_growth_fast ^ i) ≤
        pyround ((a.start_uk : ℚ) * a.uk_growth_fast ^ (i + 1)) :=
    fun i => pyround_mono (hmono i)
  have h01 : ((a.start_uk : ℕ) : ℤ) ≤ pyround ((a.start_uk : ℚ) * a.uk_growth_fast ^ 1) := by
    have hle : (((a.start_uk : ℤ)) : ℚ) ≤ (a.start_uk : ℚ) * a.uk_growth_fast ^ 1 := by
      push_cast
      calc (a.start_uk : ℚ) = (a.start_uk : ℚ) * a.uk_growth_fast ^ 0 := by ring
        _ ≤ _ := hmono 0
    calc ((a.start_uk : ℕ) : ℤ) = pyround (((a.start_uk : ℤ)) : ℚ) := (pyround_intCast _).symm
      _ ≤ _ := pyround_mono hle
  have h4nn : 0 ≤ pyround ((a.start_uk : ℚ) * a.uk_growth_fast ^ 4) :=
    pyround_nonneg (hpow 4)
  have h45 : pyround ((a.start_uk : ℚ) * a.uk_growth_fast ^ 4) ≤
      pyround ((pyround ((a.start_uk : ℚ) * a.uk_growth_fast ^ 4) : ℚ) *
        (1 + a.uk_growth_taper * 2)) := by
    have hle : ((pyround ((a.start_uk : ℚ) * a.uk_growth_fast ^ 4) : ℤ) : ℚ) ≤
        (pyround ((a.start_uk : ℚ) * a.uk_growth_fast ^ 4) : ℚ) * (1 + a.uk_growth_taper * 2) := by
      have hc : (0 : ℚ) ≤ (pyround ((a.start_uk : ℚ) * a.uk_growth_fast ^ 4) : ℚ) := by
        exact_mod_cast h4nn
      nlinarith
    calc pyround ((a.start_uk : ℚ) * a.uk_growth_fast ^ 4)
        = pyround ((pyround ((a.start_uk : ℚ) * a.uk_growth_fast ^ 4) : ℚ)) :=
          (pyround_intCast _).symm
      _ ≤ _ := pyround_mono hle
  show List.Chain' (· ≤ ·)
    [((a.start_uk : ℕ) : ℤ),
     pyround ((a.start_uk : ℚ) * a.uk_growth_fast ^ 1),
     pyround ((a.start_uk : ℚ) * a.uk_growth_fast ^ 2),
     pyround ((a.start_uk : ℚ) * a.uk_growth_fast ^ 3),
     pyround ((a.start_uk : ℚ) * a.uk_growth_fast ^ 4),
     pyround ((pyround ((a.start_uk : ℚ) * a.uk_growth_fast ^ 4) : ℚ) *
       (1 + a.uk_growth_taper * 2))]
  simp only [List.chain'_cons, List.chain'_singleton, and_true]
  exact ⟨h01, hstep 1, hstep 2, hstep 3, h45⟩

/-! ### Claims -/

/-- C1: the claim asserts every output series has exactly 12 entries on the
12-quarter axis with Total the elementwise sum; on the code the interpolation
yields only 10 UK quarters (`counts[:12]` keeps all 10 of them), so the UK
revenue column has 10 entries against a 12-label index and the
`pd.DataFrame` construction raises for every input: no 12-entry result is
ever produced. -/
theorem c1_uk_ten_quarters_and_forecast_raises (a : Assumptions) :
    labels.length = 12 ∧ (build_uk_counts a).length = 10 ∧ forecast a = none := by
  refine ⟨rfl, rfl, ?_⟩
  unfold forecast
  split
  · rename_i uk mats dists eal huk hmat hdist heal
    rw [if_neg]
    intro hcon
    have h10 : uk.length = 10 := uk_rev_length a uk huk
    have h12 : labels.length = 12 := labels_length
    omega
  · rfl

/-- C2: the claim asserts an enumerated launch-quarter label absent from the
axis (the EAL option "2028Q3", outside the 2025Q3 to 2028Q2 horizon) makes
the engine complete with an all-zero series; on the code
`labels.tolist().index(eal_start_q)` raises `ValueError` (modelled as
`none`), so the EAL series is never produced at all. -/
theorem c2_missing_eal_label_raises (a : Assumptions) (h : a.eal_start_q = "2028Q3") :
    first_eal_idx a = none ∧ eal_learners a = none ∧ eal_rev a = none := by
  have h1 : first_eal_idx a = none := by
    simp only [first_eal_idx, h]
    decide
  exact ⟨h1, by simp [eal_learners, h1], by simp [eal_rev, eal_learners, h1]⟩

/-- Witness for C2 at the sidebar defaults with the EAL launch set to
"2028Q3". -/
theorem c2_missing_eal_label_raises_witness :
    first_eal_idx { defaultAssumptions with eal_start_q := "2028Q3" } = none ∧
    eal_learners { defaultAssumptions with eal_start_q := "2028Q3" } = none ∧
    eal_rev { defaultAssumptions with eal_start_q := "2028Q3" } = none :=
  c2_missing_eal_label_raises _ rfl

/-- C3: with start_uk = 100, uk_growth_fast = 5.0, uk_growth_taper = 0.20 the
half-year targets begin [100, 500, 2500, 12500, 62500], the quarter-0 UK
count is 100 + round(0.4 × 400) = 260, and the quarter-1 count is 500. -/
theorem c3_uk_scenario (a : Assumptions) (h1 : a.start_uk = 100)
    (h2 : a.uk_growth_fast = 5) (h3 : a.uk_growth_taper = 1/5) :
    (half_targets a).take 5 = [100, 500, 2500, 12500, 62500] ∧
    (build_uk_counts a).getD 0 0 = 100 + pyround ((4/10) * 400) ∧
    (build_uk_counts a).getD 0 0 = 260 ∧
    (build_uk_counts a).getD 1 0 = 500 := by
  unfold build_uk_counts half_targets
  rw [h1, h2, h3]
  norm_num [half_targets_core, interp2, pyround]

/-- Witness for C3 at the sidebar defaults (whose UK parameters are exactly
the scenario values). -/
theorem c3_uk_scenario_witness :
    (half_targets defaultAssumptions).take 5 = [100, 500, 2500, 12500, 62500] ∧
    (build_uk_counts defaultAssumptions).getD 0 0 = 100 + pyround ((4/10) * 400) ∧
    (build_uk_counts defaultAssumptions).getD 0 0 = 260 ∧
    (build_uk_counts defaultAssumptions).getD 1 0 = 500 :=
  c3_uk_scenario defaultAssumptions rfl rfl rfl

/-- C4: MAT trial intake is trials_q × 2 at quarter 0 and trials_q at
quarters 1..11; conversions are zero at indices 0 and 1 and equal
round(intake[i−2] × conv_rate) for i ≥ 2; the cumulative converted-MAT count
is the running sum of the conversions and is non-decreasing; and MAT revenue
at quarter i is cumulative[i] × mat_multiplier × annual_price(year of
quarter i) / 4. -/
theorem c4_mats_pipeline (a : Assumptions) (hv : Valid a) :
    (trial_schedule a).getD 0 0 = (a.trials_q : ℚ) * 2 ∧
    (∀ i, 1 ≤ i → i < 12 → (trial_schedule a).getD i 0 = (a.trials_q : ℚ)) ∧
    (mat_conv a).getD 0 0 = 0 ∧ (mat_conv a).getD 1 0 = 0 ∧
    (∀ i, 2 ≤ i → i < 12 →
      (mat_conv a).getD i 0 = pyround ((trial_schedule a).getD (i - 2) 0 * a.conv_rate)) ∧
    (∀ i, i < 12 → (mat_cum a).getD i 0 = ((mat_conv a).take (i + 1)).sum) ∧
    List.Chain' (· ≤ ·) (mat_cum a) ∧
    (∀ i, i < 12 → ∃ r, mat_rev a = some r ∧
      r.getD i 0 = ((mat_cum a).getD i 0 : ℚ) * (a.mat_multiplier : ℚ) *
        ((ann_price_map a ((periods.getD i anchor).year)).getD 0) / 4) := by
  obtain ⟨_, _, _, _, _, _, _, _, hconv, _⟩ := hv
  refine ⟨trial_schedule_getD_zero a, ?_, rfl, rfl, ?_, ?_, ?_, ?_⟩
  · intro i h1 h2
    interval_cases i <;> rfl
  · intro i h1 h2
    interval_cases i <;> rfl
  · intro i h
    exact cumsum_getD _ i (by rw [mat_conv_length]; exact h)
  · apply cumsum_chain'
    intro x hx
    simp only [mat_conv, List.mem_map, List.mem_range] at hx
    obtain ⟨i, hi, rfl⟩ := hx
    split_ifs
    · exact pyround_nonneg (mul_nonneg (trial_schedule_getD_nonneg a _) hconv)
    · exact le_refl 0
  · intro i h
    have hmr : mat_rev a = some (List.zipWith (fun (c : ℤ) (p : ℚ) => (c : ℚ) * p) (mat_cum a)
        [a.school_price_y1 * (a.mat_multiplier : ℚ) / 4,
         a.school_price_y1 * (a.mat_multiplier : ℚ) / 4,
         (a.school_price_y2 * (3/4) + a.school_price_y1 * (1/4)) * (a.mat_multiplier : ℚ) / 4,
         (a.school_price_y2 * (3/4) + a.school_price_y1 * (1/4)) * (a.mat_multiplier : ℚ) / 4,
         (a.school_price_y2 * (3/4) + a.school_price_y1 * (1/4)) * (a.mat_multiplier : ℚ) / 4,
         (a.school_price_y2 * (3/4) + a.school_price_y1 * (1/4)) * (a.mat_multiplier : ℚ) / 4,
         a.school_price_y2 * (a.mat_multiplier : ℚ) / 4,
         a.school_price_y2 * (a.mat_multiplier : ℚ) / 4,
         a.school_price_y2 * (a.mat_multiplier : ℚ) / 4,
         a.school_price_y2 * (a.mat_multiplier : ℚ) / 4,
         a.school_price_y3 * (a.mat_multiplier : ℚ) / 4,
         a.school_price_y3 * (a.mat_multiplier : ℚ) / 4]) := by
      rw [mat_rev, mat_price_q_eq]
      rfl
    refine ⟨_, hmr, ?_⟩
    rw [getD_zipWith_mul _ _ i (by rw [mat_cum_length]; exact h) (by simp; omega)]
    interval_cases i <;> · norm_num [periods_eq, ann_price_map]; ring

/-- Witness for C4 at the sidebar defaults. -/
theorem c4_mats_pipeline_witness :
    (trial_schedule defaultAssumptions).getD 0 0 = (defaultAssumptions.trials_q : ℚ) * 2 ∧
    (∀ i, 1 ≤ i → i < 12 →
      (trial_schedule defaultAssumptions).getD i 0 = (defaultAssumptions.trials_q : ℚ)) ∧
    (mat_conv defaultAssumptions).getD 0 0 = 0 ∧ (mat_conv defaultAssumptions).getD 1 0 = 0 ∧
    (∀ i, 2 ≤ i → i < 12 →
      (mat_conv defaultAssumptions).getD i 0 =
        pyround ((trial_schedule defaultAssumptions).getD (i - 2) 0 *
          defaultAssumptions.conv_rate)) ∧
    (∀ i, i < 12 → (mat_cum defaultAssumptions).getD i 0 =
      ((mat_conv defaultAssumptions).take (i + 1)).sum) ∧
    List.Chain' (· ≤ ·) (mat_cum defaultAssumptions) ∧
    (∀ i, i < 12 → ∃ r, mat_rev defaultAssumptions = some r ∧
      r.getD i 0 = ((mat_cum defaultAssumptions).getD i 0 : ℚ) *
        (defaultAssumptions.mat_multiplier : ℚ) *
        ((ann_price_map defaultAssumptions
          ((periods.getD i anchor).year)).getD 0) / 4) :=
  c4_mats_pipeline defaultAssumptions (by unfold Valid; norm_num [defaultAssumptions])

/-- C5: with the district launch label resolving to index j, the district
count is 0 before j, exactly 1 district is added at j (regardless of
dist_add_q) and dist_add_q at every later index, the cumulative count is
non-decreasing, the quarterly district price is 0 before 2027,
dist_price_y1/4 in 2027 and dist_price_y2/4 from 2028, and district revenue
is cumulative count times that price. -/
theorem c5_districts_pipeline (a : Assumptions) (hv : Valid a) (j : ℕ)
    (hj : first_dist_idx a = some j) :
    (∀ i, i < j → (base_adds a j).getD i 0 = 0 ∧ (dist_cum a j).getD i 0 = 0) ∧
    (base_adds a j).getD j 0 = 1 ∧
    (∀ i, j < i → i < 12 → (base_adds a j).getD i 0 = (a.dist_add_q : ℤ)) ∧
    List.Chain' (· ≤ ·) (dist_cum a j) ∧
    (∀ i, i < 12 →
      ((periods.getD i anchor).year < 2027 → (dist_price_q a).getD i 0 = 0) ∧
      ((periods.getD i anchor).year = 2027 →
        (dist_price_q a).getD i 0 = a.dist_price_y1 / 4) ∧
      (2028 ≤ (periods.getD i anchor).year →
        (dist_price_q a).getD i 0 = a.dist_price_y2 / 4)) ∧
    (∀ i, i < 12 → ∃ r, dist_rev a = some r ∧
      r.getD i 0 = ((dist_cum a j).getD i 0 : ℚ) * (dist_price_q a).getD i 0) := by
  have hj12 : j < 12 := first_dist_idx_lt a j hj
  refine ⟨?_, ?_, ?_, ?_, ?_, ?_⟩
  · intro i hij
    constructor
    · rw [base_adds, getD_range_map _ _ _ _ (by omega), if_neg (by omega), if_neg (by omega)]
    · rw [dist_cum, cumsum_getD _ i (by rw [base_adds_length]; omega)]
      apply List.sum_eq_zero
      intro x hx
      rw [base_adds, ← List.map_take, List.take_range] at hx
      simp only [List.mem_map, List.mem_range] at hx
      obtain ⟨k, hk, rfl⟩ := hx
      have hkj : k < j := by omega
      rw [if_neg (by omega), if_neg (by omega)]
  · rw [base_adds, getD_range_map _ _ _ _ hj12, if_pos rfl]
  · intro i hji hi
    rw [base_adds, getD_range_map _ _ _ _ hi, if_neg (by omega), if_pos (by omega)]
  · apply cumsum_chain'
    intro x hx
    simp only [base_adds, List.mem_map, List.mem_range] at hx
    obtain ⟨k, hk, rfl⟩ := hx
    split_ifs <;> positivity
  · intro i hi
    interval_cases i <;> refine ⟨fun hy => ?_, fun hy => ?_, fun hy => ?_⟩ <;>
      norm_num [periods_eq, anchor, dist_price_q_eq] at hy ⊢
  · intro i hi
    have hdr : dist_rev a = some (List.zipWith (fun (c : ℤ) (p : ℚ) => (c : ℚ) * p)
        (dist_cum a j) (dist_price_q a)) := by
      rw [dist_rev, hj]
      rfl
    refine ⟨_, hdr, ?_⟩
    rw [getD_zipWith_mul _ _ i (by rw [dist_cum_length]; exact hi)
      (by rw [dist_price_q_eq]; simpa using hi)]

/-- Witness for C5 at the sidebar defaults, whose launch label "2027Q1"
resolves to index 6. -/
theorem c5_districts_pipeline_witness :
    (∀ i, i < 6 → (base_adds defaultAssumptions 6).getD i 0 = 0 ∧
      (dist_cum defaultAssumptions 6).getD i 0 = 0) ∧
    (base_adds defaultAssumptions 6).getD 6 0 = 1 ∧
    (∀ i, 6 < i → i < 12 →
      (base_adds defaultAssumptions 6).getD i 0 = (defaultAssumptions.dist_add_q : ℤ)) ∧
    List.Chain' (· ≤ ·) (dist_cum defaultAssumptions 6) ∧
    (∀ i, i < 12 →
      ((periods.getD i anchor).year < 2027 →
        (dist_price_q defaultAssumptions).getD i 0 = 0) ∧
      ((periods.getD i anchor).year = 2027 →
        (dist_price_q defaultAssumptions).getD i 0 = defaultAssumptions.dist_price_y1 / 4) ∧
      (2028 ≤ (periods.getD i anchor).year →
        (dist_price_q defaultAssumptions).getD i 0 = defaultAssumptions.dist_price_y2 / 4)) ∧
    (∀ i, i < 12 → ∃ r, dist_rev defaultAssumptions = some r ∧
      r.getD i 0 = ((dist_cum defaultAssumptions 6).getD i 0 : ℚ) *
        (dist_price_q defaultAssumptions).getD i 0) :=
  c5_districts_pipeline defaultAssumptions (by unfold Valid; norm_num [defaultAssumptions])
    6 rfl

/-- C6: with the EAL launch label resolving to index j, learners are 0
before j, exactly eal_start_learners at j, multiplied by
eal_quarterly_multiplier at each following quarter with no cap, and EAL
revenue per quarter is learner count times eal_price_annual / 4. -/
theorem c6_eal_pipeline (a : Assumptions) (j : ℕ) (hj : first_eal_idx a = some j) :
    (∀ i, i < j → (eal_learners_from a j).getD i 0 = 0) ∧
    (eal_learners_from a j).getD j 0 = a.eal_start_learners ∧
    (∀ i, j ≤ i → i + 1 < 12 →
      (eal_learners_from a j).getD (i + 1) 0 =
        (eal_learners_from a j).getD i 0 * a.eal_quarterly_multiplier) ∧
    eal_learners a = some (eal_learners_from a j) ∧
    (∀ i, i < 12 → ∃ r, eal_rev a = some r ∧
      r.getD i 0 = (eal_learners_from a j).getD i 0 * (eal_price_annual / 4)) := by
  have hj12 : j < 12 := first_eal_idx_lt a j hj
  have hel : eal_learners a = some (eal_learners_from a j) := by
    rw [eal_learners, hj]
    rfl
  refine ⟨?_, ?_, ?_, hel, ?_⟩
  · intro i hij
    rw [eal_learners_from, getD_range_map _ _ _ _ (by omega), if_pos hij]
  · rw [eal_learners_from, getD_range_map _ _ _ _ hj12, if_neg (by omega)]
    simp
  · intro i hji hi
    rw [eal_learners_from, getD_range_map _ _ _ _ hi, getD_range_map _ _ _ _ (by omega),
        if_neg (by omega), if_neg (by omega)]
    have hsub : i + 1 - j = (i - j) + 1 := by omega
    rw [hsub, pow_succ]
    ring
  · intro i hi
    refine ⟨_, by rw [eal_rev, hel]; rfl, ?_⟩
    rw [getD_map_eal_price _ i (by rw [eal_learners_from_length]; exact hi)]

/-- Witness for C6 at the sidebar defaults, whose launch label "2028Q1"
resolves to index 10. -/
theorem c6_eal_pipeline_witness :
    (∀ i, i < 10 → (eal_learners_from defaultAssumptions 10).getD i 0 = 0) ∧
    (eal_learners_from defaultAssumptions 10).getD 10 0 =
      defaultAssumptions.eal_start_learners ∧
    (∀ i, 10 ≤ i → i + 1 < 12 →
      (eal_learners_from defaultAssumptions 10).getD (i + 1) 0 =
        (eal_learners_from defaultAssumptions 10).getD i 0 *
          defaultAssumptions.eal_quarterly_multiplier) ∧
    eal_learners defaultAssumptions = some (eal_learners_from defaultAssumptions 10) ∧
    (∀ i, i < 12 → ∃ r, eal_rev defaultAssumptions = some r ∧
      r.getD i 0 = (eal_learners_from defaultAssumptions 10).getD i 0 *
        (eal_price_annual / 4)) :=
  c6_eal_pipeline defaultAssumptions 10 rfl

/-- C7: the annual school-price lookup maps 2025 to school_price_y1, 2026 to
the blend 0.25 × y1 + 0.75 × y2, 2027 to school_price_y2 and 2028 to
school_price_y3; the quarterly school price of each quarter is the annual
price of its year divided by 4, and the MATs price series uses the same
lookup (times mat_multiplier, divided by 4). -/
theorem c7_annual_price_lookup (a : Assumptions) :
    ann_price_map a 2025 = some a.school_price_y1 ∧
    ann_price_map a 2026 = some ((1/4) * a.school_price_y1 + (3/4) * a.school_price_y2) ∧
    ann_price_map a 2027 = some a.school_price_y2 ∧
    ann_price_map a 2028 = some a.school_price_y3 ∧
    (∀ i, i < 12 → ∃ sp mp, school_price_q a = some sp ∧ mat_price_q a = some mp ∧
      sp.getD i 0 = ((ann_price_map a ((periods.getD i anchor).year)).getD 0) / 4 ∧
      mp.getD i 0 = ((ann_price_map a ((periods.getD i anchor).year)).getD 0) *
        (a.mat_multiplier : ℚ) / 4) := by
  refine ⟨rfl, ?_, rfl, rfl, ?_⟩
  · show some (a.school_price_y2 * (3/4) + a.school_price_y1 * (1/4)) = _
    congr 1
    ring
  · intro i hi
    refine ⟨_, _, school_price_q_eq a, mat_price_q_eq a, ?_, ?_⟩ <;>
      interval_cases i <;> norm_num [periods_eq, anchor, ann_price_map]

/-- C8: with uk_growth_fast ≥ 1 and uk_growth_taper ≥ 0, the UK quarterly
count sequence produced by the half-year-target-and-interpolation algorithm
is monotonically non-decreasing over its whole length. -/
theorem c8_uk_counts_monotone (a : Assumptions) (hf : 1 ≤ a.uk_growth_fast)
    (ht : 0 ≤ a.uk_growth_taper) : List.Chain' (· ≤ ·) (build_uk_counts a) :=
  List.Chain'.take (interp2_chain_of_chain _ (half_targets_chain a hf ht)) 12

/-- Witness for C8 at the sidebar defaults. -/
theorem c8_uk_counts_monotone_witness :
    List.Chain' (· ≤ ·) (build_uk_counts defaultAssumptions) :=
  c8_uk_counts_monotone defaultAssumptions (by norm_num [defaultAssumptions])
    (by norm_num [defaultAssumptions])

/-- C9: every quarter of the fixed axis has calendar year between 2025 and
2028, so the annual-price dictionary lookup is defined at every quarter and
the UK and MATs quarterly price computations are total over the horizon. -/
theorem c9_price_lookup_total (a : Assumptions) :
    (∀ p, p ∈ periods → (2025 ≤ p.year ∧ p.year ≤ 2028) ∧
      (ann_price_map a p.year).isSome = true) ∧
    (school_price_q a).isSome = true ∧ (mat_price_q a).isSome = true := by
  refine ⟨?_, rfl, rfl⟩
  intro p hp
  rw [periods_eq] at hp
  fin_cases hp <;> exact ⟨by norm_num, rfl⟩

/-- C10: the fixed per-learner annual EAL price is the constant 30, so EAL
revenue at every quarter is exactly 7.5 times the learner count. -/
theorem c10_eal_price_constant (a : Assumptions) (l : List ℚ)
    (h : eal_learners a = some l) :
    eal_price_annual = 30 ∧
    ∃ r, eal_rev a = some r ∧ ∀ i, i < 12 → r.getD i 0 = (15/2) * l.getD i 0 := by
  have hlen : l.length = 12 := by
    rw [eal_learners] at h
    cases hje : first_eal_idx a with
    | none => rw [hje] at h; simp at h
    | some j =>
        rw [hje] at h
        simp only [Option.map_some'] at h
        cases h
        exact eal_learners_from_length a j
  refine ⟨rfl, l.map (fun n => n * (eal_price_annual / 4)), ?_, ?_⟩
  · rw [eal_rev, eal_learners] at *
    rw [h]
    rfl
  · intro i hi
    rw [getD_map_eal_price _ i (by omega)]
    show l.getD i 0 * (eal_price_annual / 4) = 15/2 * l.getD i 0
    rw [eal_price_annual]
    ring

/-- Witness for C10 at the sidebar defaults, whose EAL series launches at
index 10. -/
theorem c10_eal_price_constant_witness :
    eal_price_annual = 30 ∧
    ∃ r, eal_rev defaultAssumptions = some r ∧ ∀ i, i < 12 →
      r.getD i 0 = (15/2) * (eal_learners_from defaultAssumptions 10).getD i 0 :=
  c10_eal_price_constant defaultAssumptions (eal_learners_from defaultAssumptions 10) rfl

end StylusForecast
